import Mathlib

/-!
Verification of the relocation-resolution and instruction-patching engine of the
CLE loader (ELF/ARM, ELF/AArch64 and PE backends), as a shallow embedding.

Python integers are arbitrary-precision two's-complement integers, so they are
modelled by `Int` (or by `Nat` where the source value is known non-negative).
The bitwise operators `&`, `|` and `~` of Python are modelled by `pyAnd`,
`pyOr` and `pyNot` below, which implement two's-complement bitwise operations
on `Int` exactly; `>>` on a Python int is arithmetic (floor) shift, which is
`Int.shiftRight`; `x & (2^k - 1)` on a Python int equals `x % 2^k`
(euclidean/floor mod, which is Lean's `%` on `Int`), and the embedding uses
`% 2^k` for such mask-to-width operations.
-/

/-- Two's-complement bitwise AND on arbitrary-precision integers, exactly the
semantics of Python's `&` operator.  A negative number `(-m-1)` has the bit
pattern of the complement of `m`, so e.g. `ofNat m &&& negSucc n` keeps the
bits of `m` that are clear in `n`. -/
def pyAnd : Int → Int → Int
  | .ofNat m, .ofNat n => .ofNat (m &&& n)
  | .ofNat m, .negSucc n => .ofNat (m - (m &&& n))
  | .negSucc m, .ofNat n => .ofNat (n - (n &&& m))
  | .negSucc m, .negSucc n => .negSucc (m ||| n)

/-- Two's-complement bitwise OR on arbitrary-precision integers, exactly the
semantics of Python's `|` operator. -/
def pyOr : Int → Int → Int
  | .ofNat m, .ofNat n => .ofNat (m ||| n)
  | .ofNat m, .negSucc n => .negSucc (n - (n &&& m))
  | .negSucc m, .ofNat n => .negSucc (m - (m &&& n))
  | .negSucc m, .negSucc n => .negSucc (m &&& n)

/-- Python's `~x`, which is `-x - 1` on arbitrary-precision two's-complement
integers. -/
def pyNot (a : Int) : Int := -a - 1

/-! ## 32-bit ARM relocations (cle/backends/elf/relocation/arm.py) -/

/-- Embedding of `_applyReloc(inst, result, mask)`: applies `mask` to the
relocation `result` and verifies that the mask is valid for it; on a mask
violation the exception is caught, a warning is logged and `0` is returned
("worst case, you hook it yourself"). -/
def applyReloc (inst result mask : Int) : Int :=
  if pyAnd result (pyNot mask) ≠ 0 then 0
  else pyOr (pyAnd inst (pyNot mask)) (pyAnd result mask)

/-- Embedding of `_isThumbFunc(symbol, addr)`: the LSB of the address is 1 and
the symbol is `STT_FUNC`. -/
def isThumbFunc (symbolIsFunc : Bool) (addr : Nat) : Bool :=
  addr % 2 == 1 && symbolIsFunc

/-- Embedding of `R_ARM_CALL.value` (also used for `R_ARM_PC24` and
`R_ARM_JUMP24`).  `P` is the rebased address of the relocation target,
`addend` is the instruction word found there (implicit addend), `S` the
resolved symbol address.  Operation `((S + (A << 2)) | T) - P`, then either
the Thumb-stub patch path (`T = 1`) or the 24-bit immediate patch path. -/
def R_ARM_CALL_value (P addend S : Nat) (symbolIsFunc : Bool) : Int :=
  let T : Nat := if isThumbFunc symbolIsFunc S then 1 else 0
  let inst : Nat := addend
  -- if inst & 0x00800000: A |= 0xFF000000 (sign extend to 32 bits)
  let A : Nat := if inst &&& 0x00800000 ≠ 0 then inst ||| 0xFF000000 else inst
  let result : Int := (((S + (A <<< 2)) ||| T : Nat) : Int) - (P : Int)
  let imm24 : Int := (pyAnd result 0x03FFFFFE) >>> 2
  if T = 1 then
    -- Thumb relocation: mask = 0xFF000000, result = 0xFA | bit_h
    let bit_h : Int := (pyAnd result 0x02) >>> 1
    applyReloc (inst : Int) (pyOr 0xFA bit_h) 0xFF000000
  else
    -- ARM relocation: mask = 0xFFFFFF
    applyReloc (inst : Int) imm24 0xFFFFFF

/-- Embedding of `R_ARM_PREL31.value`.  `addend` is the stored field value;
the source sign-extends it when bit 24 (`0x01000000`) is set by OR-ing in
`0xF1000000`, computes `((S + A) | T) - P`, masks to 31 bits and writes the
result through `_applyReloc(A, rel31, 0x7FFFFFFF)`. -/
def R_ARM_PREL31_value (P : Nat) (addend : Int) (S : Nat) (symbolIsFunc : Bool) : Int :=
  let T : Nat := if isThumbFunc symbolIsFunc S then 1 else 0
  let A : Int := if pyAnd addend 0x01000000 ≠ 0 then pyOr addend 0xF1000000 else addend
  let result : Int := pyOr ((S : Int) + A) (T : Int) - (P : Int)
  let rel31 : Int := pyAnd result 0x7FFFFFFF
  applyReloc A rel31 0x7FFFFFFF

/-- Embedding of the local helper `gen_mask(n_bits, first_bit)` of
`R_ARM_THM_CALL.value`. -/
def genMask (nBits firstBit : Nat) : Nat :=
  ((1 <<< nBits) - 1) <<< firstBit

/-- The 4-byte Thumb-2 call instruction is stored as two little-endian 2-byte
halves; the source loads bytes `b0 b1 b2 b3` and forms
`inst = ((b1 << 8 | b0) << 16) | (b3 << 8 | b2)`.  Here `w` is the 4-byte
little-endian memory word, so `b0 = w % 256`, etc. -/
def thmDeinterleaveWord (w : Nat) : Nat :=
  let b0 := w % 256
  let b1 := w / 256 % 256
  let b2 := w / 65536 % 256
  let b3 := w / 16777216 % 256
  let hi := (b1 <<< 8) ||| b0
  let lo := (b3 <<< 8) ||| b2
  (hi <<< 16) ||| lo

/-- Embedding of the implicit-addend extraction of `R_ARM_THM_CALL.value`
(the non-`is_rela` branch): gathers `A[11:1]` from `inst[10:0]`, `A[21:12]`
from `inst[25:16]`, the J1/J2 bits (each XORed with the complement of the
sign bit `inst[26]`), masks with `0x7FFFFF` and sign-extends. -/
def thmGatherA (inst : Nat) : Nat :=
  let sign_bit : Nat := if inst &&& genMask 1 26 ≠ 0 then 1 else 0
  let J1 : Nat := (if inst &&& genMask 1 13 ≠ 0 then 1 else 0) ^^^ (1 - sign_bit)
  let J2 : Nat := (if inst &&& genMask 1 11 ≠ 0 then 1 else 0) ^^^ (1 - sign_bit)
  let A : Nat := ((inst &&& genMask 11 0) <<< 1) |||
    (((inst &&& genMask 10 16) >>> 16) <<< 12) ||| (J1 <<< 23) ||| (J2 <<< 22)
  let A := A &&& 0x7FFFFF
  if sign_bit = 1 then A ||| 0xFF800000 else A

/-- Embedding of the instruction-rebuild step of `R_ARM_THM_CALL.value`:
clears the offset bits (`inst &= ~0b00000111111111110010111111111111`; the
de-interleaved instruction is below `2^32`, so this is `&&&` with the 32-bit
complement `0xF800D000`), then scatters the new offset `x` into the sign bit,
the XOR-adjusted J1/J2 bits and the two immediate groups. -/
def thmScatter (inst x : Nat) : Nat :=
  let inst := inst &&& 0xF800D000
  let sign_bit : Nat := if x &&& genMask 1 24 ≠ 0 then 1 else 0
  let J1 : Nat := (if x &&& genMask 1 23 ≠ 0 then 1 else 0) ^^^ (1 - sign_bit)
  let J2 : Nat := (if x &&& genMask 1 22 ≠ 0 then 1 else 0) ^^^ (1 - sign_bit)
  let inst := inst ||| (sign_bit <<< 26) ||| (J1 <<< 13) ||| (J2 <<< 11)
  let inst := inst ||| ((x &&& genMask 11 1) >>> 1)
  inst ||| (((x &&& genMask 10 12) >>> 12) <<< 16)

/-- Embedding of the re-interleave step of `R_ARM_THM_CALL.value`: the raw
byte tuple `(inst[23:16], inst[31:24], inst[7:0], inst[15:8])` is assembled
back into a little-endian result word `raw[3] << 24 | raw[2] << 16 |
raw[1] << 8 | raw[0]`. -/
def thmInterleave (inst : Nat) : Nat :=
  let r0 := (inst &&& 0x00FF0000) >>> 16
  let r1 := (inst &&& 0xFF000000) >>> 24
  let r2 := inst &&& 0x00FF
  let r3 := (inst &&& 0xFF00) >>> 8
  (r3 <<< 24) ||| (r2 <<< 16) ||| (r1 <<< 8) ||| r0

/-- The PC-relative offset `x = (((S + A) | T) - P) & 0xFFFFFFFF` computed by
`R_ARM_THM_CALL.value` (the `& 0xFFFFFFFF` of a Python int is `% 2^32`).
`w` is the little-endian instruction word at the target, used for the
implicit addend when `isRela` is false; `addend` is the explicit addend. -/
def thmCallOffset (P S : Nat) (symbolIsFunc : Bool) (isRela : Bool) (addend : Int)
    (w : Nat) : Nat :=
  let T : Nat := if isThumbFunc symbolIsFunc S then 1 else 0
  let inst : Nat := thmDeinterleaveWord w
  let A : Int := if isRela then addend else (thmGatherA inst : Int)
  ((pyOr ((S : Int) + A) (T : Int) - (P : Int)) % (2 ^ 32 : Int)).toNat

/-- The typed error raised by the engine (cle/errors.py `CLEOperationError`). -/
inductive CLEError where
  | operationError (msg : String)
deriving DecidableEq

/-- Embedding of `R_ARM_THM_CALL.value`: computes the offset `x`, raises
`CLEOperationError` when the jump target is out of the signed `±2^23` range
(`x & 0xFF800000` is neither `0` nor `0xFF800000`), otherwise rebuilds the
instruction and returns the little-endian result word. -/
def R_ARM_THM_CALL_value (P S : Nat) (symbolIsFunc : Bool) (isRela : Bool)
    (addend : Int) (w : Nat) : Except CLEError Nat :=
  let inst : Nat := thmDeinterleaveWord w
  let x : Nat := thmCallOffset P S symbolIsFunc isRela addend w
  if x &&& 0xFF800000 ≠ 0 ∧ x &&& 0xFF800000 ≠ 0xFF800000 then
    .error (.operationError "Jump target out of range for reloc R_ARM_THM_CALL (+- 2^23).")
  else
    .ok (thmInterleave (thmScatter inst x))

/-- Modelled from the spec: the per-record apply step for `R_ARM_THM_CALL`.
The write path (`ELFReloc.relocate` / the memory-write interface of the
backing image) is not part of the provided sources; per spec §6
(`apply() -> bool`) and §7, a hard failure aborts the application and
propagates the typed error, so the destination word `w` is written only when
`value` computed successfully. -/
def R_ARM_THM_CALL_apply (P S : Nat) (symbolIsFunc : Bool) (isRela : Bool)
    (addend : Int) (w : Nat) : Except CLEError Unit × Nat :=
  match R_ARM_THM_CALL_value P S symbolIsFunc isRela addend w with
  | .error e => (.error e, w)
  | .ok v => (.ok (), v)

/-! ## AArch64 relocations (cle/backends/elf/relocation/arm64.py)

Each `relocate` takes the (optional) resolved symbol address: the base-class
guard `if not self.resolved: return False` corresponds to `resolvedby = none`
(spec §3: `resolvedby` absent means unresolved).  The memory state is the
4-byte little-endian word `mem` at the relocation's address (the only memory
these routines read or write); the result is `(changed, new word)`.  Python's
`value >> 2 & 0b11...1` (26 ones) is `(value >>> 2) % 2^26`, etc. -/

/-- Calculation `(S + A - P)` of `R_AARCH64_JUMP26.value`. -/
def R_AARCH64_JUMP26_value (S A P : Int) : Int := S + A - P

/-- Embedding of `R_AARCH64_JUMP26.relocate`: keeps the top 6 opcode bits of
the stored instruction and ORs in bits `[27:2]` of the value.  (The
out-of-range condition only logs a warning and has no effect on the bytes.) -/
def R_AARCH64_JUMP26_relocate (resolvedby : Option Int) (A P : Int) (mem : Nat) :
    Bool × Nat :=
  match resolvedby with
  | none => (false, mem)
  | some S =>
    let value := R_AARCH64_JUMP26_value S A P
    let instr := mem &&& 0b11111100000000000000000000000000
    let imm := ((value >>> 2) % (2 ^ 26 : Int)).toNat
    (true, instr ||| imm)

/-- Calculation `(S + A - P)` of `R_AARCH64_CALL26.value`. -/
def R_AARCH64_CALL26_value (S A P : Int) : Int := S + A - P

/-- Embedding of `R_AARCH64_CALL26.relocate` (same encoding as JUMP26). -/
def R_AARCH64_CALL26_relocate (resolvedby : Option Int) (A P : Int) (mem : Nat) :
    Bool × Nat :=
  match resolvedby with
  | none => (false, mem)
  | some S =>
    let value := R_AARCH64_CALL26_value S A P
    let instr := mem &&& 0b11111100000000000000000000000000
    let imm := ((value >>> 2) % (2 ^ 26 : Int)).toNat
    (true, instr ||| imm)

/-- Calculation `Page(S + A) - Page(P)` of `R_AARCH64_ADR_PREL_PG_HI21.value`,
where `Page(x) = x & ~0xFFF` in the source. -/
def R_AARCH64_ADR_PREL_PG_HI21_value (S A P : Int) : Int :=
  pyAnd (S + A) (pyNot 0xFFF) - pyAnd P (pyNot 0xFFF)

/-- Embedding of `R_AARCH64_ADR_PREL_PG_HI21.relocate`: keeps the instruction
bits outside the ADRP immediate fields, then ORs in `immhi` at bit 5 and
`immlo` at bit 29, where `imm = value >> 12 & 0x1FFFFF`. -/
def R_AARCH64_ADR_PREL_PG_HI21_relocate (resolvedby : Option Int) (A P : Int)
    (mem : Nat) : Bool × Nat :=
  match resolvedby with
  | none => (false, mem)
  | some S =>
    let value := R_AARCH64_ADR_PREL_PG_HI21_value S A P
    let instr := mem &&& 0b10011111000000000000000000011111
    let imm := ((value >>> 12) % (2 ^ 21 : Int)).toNat
    let immlo := imm &&& 0b11
    let immhi := imm >>> 2
    (true, instr ||| (immhi <<< 5) ||| (immlo <<< 29))

/-- Calculation `(S + A)` of `R_AARCH64_ADD_ABS_LO12_NC.value`. -/
def R_AARCH64_ADD_ABS_LO12_NC_value (S A : Int) : Int := S + A

/-- Embedding of `R_AARCH64_ADD_ABS_LO12_NC.relocate`: the low 12 bits of the
value are ORed in at bit 10 of the instruction. -/
def R_AARCH64_ADD_ABS_LO12_NC_relocate (resolvedby : Option Int) (A : Int)
    (mem : Nat) : Bool × Nat :=
  match resolvedby with
  | none => (false, mem)
  | some S =>
    let value := R_AARCH64_ADD_ABS_LO12_NC_value S A
    let instr := mem &&& 0b11111111110000000000001111111111
    let imm := (value % (2 ^ 12 : Int)).toNat
    (true, instr ||| (imm <<< 10))

/-- Embedding of `R_AARCH64_LDST8_ABS_LO12_NC.relocate` (scale factor 0). -/
def R_AARCH64_LDST8_ABS_LO12_NC_relocate (resolvedby : Option Int) (A : Int)
    (mem : Nat) : Bool × Nat :=
  match resolvedby with
  | none => (false, mem)
  | some S =>
    let value := S + A
    let instr := mem &&& 0b11111111110000000000001111111111
    let imm := (value % (2 ^ 12 : Int)).toNat
    (true, instr ||| (imm <<< 10))

/-- Embedding of `R_AARCH64_LDST16_ABS_LO12_NC.relocate` (scale factor 1). -/
def R_AARCH64_LDST16_ABS_LO12_NC_relocate (resolvedby : Option Int) (A : Int)
    (mem : Nat) : Bool × Nat :=
  match resolvedby with
  | none => (false, mem)
  | some S =>
    let value := S + A
    let instr := mem &&& 0b11111111110000000000001111111111
    let imm := (value % (2 ^ 12 : Int)).toNat >>> 1
    (true, instr ||| (imm <<< 10))

/-- Embedding of `R_AARCH64_LDST32_ABS_LO12_NC.relocate` (scale factor 2). -/
def R_AARCH64_LDST32_ABS_LO12_NC_relocate (resolvedby : Option Int) (A : Int)
    (mem : Nat) : Bool × Nat :=
  match resolvedby with
  | none => (false, mem)
  | some S =>
    let value := S + A
    let instr := mem &&& 0b11111111110000000000001111111111
    let imm := (value % (2 ^ 12 : Int)).toNat >>> 2
    (true, instr ||| (imm <<< 10))

/-- Embedding of `R_AARCH64_LDST64_ABS_LO12_NC.relocate` (scale factor 3). -/
def R_AARCH64_LDST64_ABS_LO12_NC_relocate (resolvedby : Option Int) (A : Int)
    (mem : Nat) : Bool × Nat :=
  match resolvedby with
  | none => (false, mem)
  | some S =>
    let value := S + A
    let instr := mem &&& 0b11111111110000000000001111111111
    let imm := (value % (2 ^ 12 : Int)).toNat >>> 3
    (true, instr ||| (imm <<< 10))

/-- Embedding of `R_AARCH64_LDST128_ABS_LO12_NC.relocate` (scale factor 4). -/
def R_AARCH64_LDST128_ABS_LO12_NC_relocate (resolvedby : Option Int) (A : Int)
    (mem : Nat) : Bool × Nat :=
  match resolvedby with
  | none => (false, mem)
  | some S =>
    let value := S + A
    let instr := mem &&& 0b11111111110000000000001111111111
    let imm := (value % (2 ^ 12 : Int)).toNat >>> 4
    (true, instr ||| (imm <<< 10))

/-! ## PE base relocations (cle/backends/pe/pe.py) -/

/-- One decoded entry of a PE base-relocation directory block: a 4-bit type
tag and a page-offset RVA (decoding of the raw entries is done by `pefile`,
outside the core). -/
structure PEBaseRelocEntry where
  ty : Nat
  rva : Nat
deriving DecidableEq

/-- `pefile.RELOCATION_TYPE["IMAGE_REL_BASED_HIGHADJ"]`. -/
def IMAGE_REL_BASED_HIGHADJ_TYPE : Nat := 4

/-- The relocation records `PE._make_reloc` can construct. -/
inductive PERelocRecord where
  | absolute (rva : Nat)
  | dllImport (rva : Nat)
  | highadj (rva next_rva : Nat)
  | normal (rva ty : Nat)
deriving DecidableEq

/-- Embedding of `PE._make_reloc(addr, reloc_type, next_rva, ...)`.
`lookup ty` stands for `get_relocation(arch, ty) is not None` (the
relocation-class table lives outside the provided sources, so it is a
parameter).  Order of the special cases follows the source: type 0 first
(absolute, "ignore this relocation"), then `None` (DLL import), then the
`next_rva` HIGHADJ pairing, then the table lookup (returning `none` when no
class is found). -/
def makeReloc (lookup : Nat → Bool) (addr : Nat) (relocType : Option Nat)
    (next_rva : Option Nat) : Option PERelocRecord :=
  if relocType = some 0 then some (.absolute addr)
  else if relocType = none then some (.dllImport addr)
  else match next_rva with
    | some nr => some (.highadj addr nr)
    | none => match relocType with
      | some ty => if lookup ty then some (.normal addr ty) else none
      | none => none

/-- Embedding of the entry loop of `PE.__register_relocs` over one
base-relocation directory block.  State: the cursor `i` (`entry_idx`), the
accumulated `pic` flag and relocation list, and whether the corrupt-table
warning has been emitted.  Mirrors the source exactly:

* on a HIGHADJ entry the source checks `entry_idx == len(base_reloc.entries)`
  (inside the `while entry_idx < len(...)` guard), warns and breaks if so;
* otherwise it takes `next_entry = base_reloc.entries[entry_idx]` (note:
  before incrementing the cursor) and advances the cursor by 2 in total;
* any produced record sets `pic = True` and is appended. -/
def registerRelocsGo (lookup : Nat → Bool) (entries : List PEBaseRelocEntry)
    (i : Nat) (pic : Bool) (acc : List PERelocRecord) (warned : Bool) :
    List PERelocRecord × Bool × Bool :=
  if h : i < entries.length then
    let reloc_data := entries.get ⟨i, h⟩
    if reloc_data.ty = IMAGE_REL_BASED_HIGHADJ_TYPE then
      if i = entries.length then
        -- log.warning("PE contains corrupt base relocation table"); break
        (acc, pic, true)
      else
        let next_entry := entries.get ⟨i, h⟩
        let reloc := makeReloc lookup reloc_data.rva (some reloc_data.ty)
          (some next_entry.rva)
        match reloc with
        | some r => registerRelocsGo lookup entries (i + 2) true (acc ++ [r]) warned
        | none => registerRelocsGo lookup entries (i + 2) pic acc warned
    else
      let reloc := makeReloc lookup reloc_data.rva (some reloc_data.ty) none
      match reloc with
      | some r => registerRelocsGo lookup entries (i + 1) true (acc ++ [r]) warned
      | none => registerRelocsGo lookup entries (i + 1) pic acc warned
  else (acc, pic, warned)
termination_by entries.length - i

/-- One base-relocation directory block processed from cursor 0. -/
def registerRelocsBlock (lookup : Nat → Bool) (entries : List PEBaseRelocEntry)
    (pic : Bool) (acc : List PERelocRecord) : List PERelocRecord × Bool × Bool :=
  registerRelocsGo lookup entries 0 pic acc false

/-- Embedding of `PE.__register_relocs`: folds the per-block loop over all
blocks of `DIRECTORY_ENTRY_BASERELOC`, threading the `pic` flag and the
relocation list. -/
def registerRelocs (lookup : Nat → Bool) (blocks : List (List PEBaseRelocEntry))
    (pic : Bool) (acc : List PERelocRecord) : List PERelocRecord × Bool :=
  match blocks with
  | [] => (acc, pic)
  | b :: rest =>
    let r := registerRelocsBlock lookup b pic acc
    registerRelocs lookup rest r.2.1 r.1

/-- Embedding of the `pic` initialisation in `PE.__init__`:
`self.pic = self.pic or DllCharacteristics & 0x40 != 0`. -/
def picInit (picPrior : Bool) (dllCharacteristics : Nat) : Bool :=
  picPrior || (dllCharacteristics &&& 0x40 ≠ 0)

/-- Spec-side 4KiB page truncation, written from the spec's words:
`Page(x) = x & ~0xFFF` clears the low 12 bits, i.e. rounds down to a
multiple of 4096 (floor semantics on two's-complement integers). -/
def pageOf (x : Int) : Int := x - x % 4096

/-- Spec-side range window of C4: a 32-bit pattern `x` fits the signed
`±2^23` window iff it represents a value in `[-2^23, 2^23)`. -/
def fitsThmWindow (x : Nat) : Prop := x < 2 ^ 23 ∨ 2 ^ 32 - 2 ^ 23 ≤ x

instance (x : Nat) : Decidable (fitsThmWindow x) := by
  unfold fitsThmWindow
  infer_instance

/-! ## Bit-manipulation toolkit -/

theorem nat_and_two_pow_sub_one (m k : Nat) : m &&& (2 ^ k - 1) = m % 2 ^ k := by
  apply Nat.eq_of_testBit_eq
  intro i
  simp [Nat.testBit_and, Nat.testBit_mod_two_pow, Nat.testBit_two_pow_sub_one, Bool.and_comm]

theorem and_submask_zero {x m s : Nat} (h : x &&& m = 0) (hs : m &&& s = s) :
    x &&& s = 0 := by
  rw [← hs, ← Nat.and_assoc, h, Nat.zero_and]

theorem and_submask_self {x m s : Nat} (h : x &&& m = m) (hs : m &&& s = s) :
    x &&& s = s := by
  rw [← hs, ← Nat.and_assoc, h]

theorem testBit_of_and_two_pow_eq_zero {x k L : Nat} (hL : L = 2 ^ k)
    (h : x &&& L = 0) : x.testBit k = false := by
  subst hL
  rw [Nat.and_two_pow] at h
  rcases hb : x.testBit k
  · rfl
  · rw [hb] at h
    simp at h

theorem testBit_of_and_two_pow_ne_zero {x k L : Nat} (hL : L = 2 ^ k)
    (h : x &&& L ≠ 0) : x.testBit k = true := by
  subst hL
  rw [Nat.and_two_pow] at h
  rcases hb : x.testBit k
  · rw [hb] at h
    simp at h
  · rfl

theorem and_two_pow_of_testBit_false {x k L : Nat} (hL : L = 2 ^ k)
    (h : x.testBit k = false) : x &&& L = 0 := by
  subst hL
  rw [Nat.and_two_pow, h]
  simp

theorem and_two_pow_of_testBit_true {x k L : Nat} (hL : L = 2 ^ k)
    (h : x.testBit k = true) : x &&& L = 2 ^ k := by
  subst hL
  rw [Nat.and_two_pow, h]
  simp

theorem testBit_ge_of_lt {v k n : Nat} (hv : v < 2 ^ k) (hk : k ≤ n) :
    v.testBit n = false :=
  Nat.testBit_lt_two_pow (lt_of_lt_of_le hv (Nat.pow_le_pow_right (by norm_num) hk))

theorem toNat_emod_two_pow_lt (v : Int) (k : Nat) :
    (v % ((2 ^ k : Nat) : Int)).toNat < 2 ^ k := by
  have h1 : 0 ≤ v % ((2 ^ k : Nat) : Int) :=
    Int.emod_nonneg v (by positivity)
  have h2 : v % ((2 ^ k : Nat) : Int) < ((2 ^ k : Nat) : Int) :=
    Int.emod_lt_of_pos v (by positivity)
  omega

theorem lor_low4095 (m : Nat) : m ||| 4095 = m / 4096 * 4096 + 4095 := by
  have hshape : m / 4096 * 4096 + 4095 = 2 ^ 12 * (m / 4096) + 4095 := by ring
  rw [hshape]
  apply Nat.eq_of_testBit_eq
  intro i
  rw [Nat.testBit_mul_pow_two_add (m / 4096) (by norm_num) i]
  rcases Nat.lt_or_ge i 12 with hi | hi
  · rw [if_pos hi]
    have h4 : Nat.testBit 4095 i = true := by
      rw [show (4095 : Nat) = 2 ^ 12 - 1 by norm_num, Nat.testBit_two_pow_sub_one]
      simpa using hi
    simp [Nat.testBit_or, h4]
  · rw [if_neg (Nat.not_lt.mpr hi)]
    have h4 : Nat.testBit 4095 i = false := by
      rw [show (4095 : Nat) = 2 ^ 12 - 1 by norm_num, Nat.testBit_two_pow_sub_one]
      simpa using Nat.not_lt.mpr hi
    have hdiv : m / 4096 = m >>> 12 := by
      rw [Nat.shiftRight_eq_div_pow]
    rw [Nat.testBit_or, h4, hdiv, Nat.testBit_shiftRight, Nat.add_sub_cancel' hi]
    simp

/-- Python's `x & ~0xFFF` on an arbitrary-precision integer equals the
4KiB floor truncation `x - x % 4096`. -/
theorem pyAnd_pageMask (x : Int) : pyAnd x (pyNot 0xFFF) = pageOf x := by
  have hmask : pyNot 0xFFF = Int.negSucc 4095 := by decide
  rw [hmask]
  unfold pageOf
  cases x with
  | ofNat m =>
    have hL : pyAnd (Int.ofNat m) (Int.negSucc 4095) = Int.ofNat (m - (m &&& 4095)) := rfl
    have hm : m &&& 4095 = m % 4096 := by
      have h12 := nat_and_two_pow_sub_one m 12
      norm_num at h12
      exact h12
    rw [hL, hm]
    simp only [Int.ofNat_eq_coe]
    omega
  | negSucc m =>
    have hL : pyAnd (Int.negSucc m) (Int.negSucc 4095) = Int.negSucc (m ||| 4095) := rfl
    rw [hL, lor_low4095 m, Int.negSucc_eq, Int.negSucc_eq]
    push_cast
    omega

theorem and_hi9 (x : Nat) : x &&& 0xFF800000 = (x >>> 23 % 2 ^ 9) <<< 23 := by
  rw [show (0xFF800000 : Nat) = (2 ^ 9 - 1) <<< 23 by decide]
  apply Nat.eq_of_testBit_eq
  intro i
  simp only [Nat.testBit_and, Nat.testBit_shiftLeft, Nat.testBit_mod_two_pow,
    Nat.testBit_shiftRight, Nat.testBit_two_pow_sub_one, ge_iff_le]
  rcases Nat.lt_or_ge i 23 with hi | hi
  · have hni : ¬ (23 ≤ i) := Nat.not_le.mpr hi
    simp [hni]
  · rw [Nat.add_sub_cancel' hi]
    rcases Nat.lt_or_ge (i - 23) 9 with h9 | h9
    · simp [hi, h9, Bool.and_comm]
    · simp [hi, Nat.not_lt.mpr h9]

theorem and_hi9_eq_zero_iff {x : Nat} (hx : x < 2 ^ 32) :
    x &&& 0xFF800000 = 0 ↔ x < 2 ^ 23 := by
  rw [and_hi9, Nat.shiftLeft_eq, Nat.shiftRight_eq_div_pow]
  omega

theorem and_hi9_eq_self_iff {x : Nat} (hx : x < 2 ^ 32) :
    x &&& 0xFF800000 = 0xFF800000 ↔ 2 ^ 32 - 2 ^ 23 ≤ x := by
  rw [and_hi9, Nat.shiftLeft_eq, Nat.shiftRight_eq_div_pow]
  omega

/-! ## C1 / C3 / C7: ARM branch-24 and PREL31 -/

theorem nat_and_two_cases (m : Nat) : m &&& 2 = 0 ∨ m &&& 2 = 2 := by
  have h := Nat.and_two_pow m 1
  norm_num at h
  cases hb : m.testBit 1 <;> rw [hb] at h <;> simp at h <;> omega

theorem pyAnd_two_cases (r : Int) : pyAnd r 2 = 0 ∨ pyAnd r 2 = 2 := by
  cases r with
  | ofNat m =>
    show Int.ofNat (m &&& 2) = 0 ∨ Int.ofNat (m &&& 2) = 2
    rcases nat_and_two_cases m with h | h <;> rw [h] <;> simp
  | negSucc m =>
    show Int.ofNat (2 - (2 &&& m)) = 0 ∨ Int.ofNat (2 - (2 &&& m)) = 2
    rw [Nat.and_comm]
    rcases nat_and_two_cases m with h | h <;> rw [h] <;> simp

/-- The Thumb-interworking path of `R_ARM_CALL.value` feeds the stub byte
`0xFA | bit_h` (which lives in bits 0..7) to `_applyReloc` with the mask
`0xFF000000` (bits 24..31), so the mask check always fails and `_applyReloc`
returns its fallback `0`. -/
theorem applyReloc_thumb_stub (inst r : Int) :
    applyReloc inst (pyOr 0xFA ((pyAnd r 2) >>> 1)) 0xFF000000 = 0 := by
  rcases pyAnd_two_cases r with h | h <;> rw [h]
  · have hstub : pyOr 0xFA ((0 : Int) >>> 1) = 0xFA := by decide
    rw [hstub]
    unfold applyReloc
    rw [if_pos (by decide)]
  · have hstub : pyOr 0xFA ((2 : Int) >>> 1) = 0xFB := by decide
    rw [hstub]
    unfold applyReloc
    rw [if_pos (by decide)]

/-- C1: the claim states that for the ARM Branch-24 family with the Thumb bit
`T = 1` the patched word is the original instruction with its low byte
replaced by the stub opcode `0xFA`/`0xFB`.  In the code, however, the stub
value `0xFA | bit_h` never fits the mask `0xFF000000` that
`R_ARM_CALL.value` passes to `_applyReloc`, so the mask check fails and the
computed patched word is always `0` — for every location, addend and Thumb
symbol address — never a stub-patched instruction. -/
theorem R_ARM_CALL_thumb_stub_vanishes (P addend S : Nat) (symbolIsFunc : Bool)
    (hT : isThumbFunc symbolIsFunc S = true) :
    R_ARM_CALL_value P addend S symbolIsFunc = 0 := by
  unfold R_ARM_CALL_value
  rw [hT]
  simp only [if_true, if_pos rfl]
  exact applyReloc_thumb_stub _ _

/-- C1 witness: at `P = 0x1000`, implicit addend 0, Thumb function symbol at
`S = 0x2001`, the code computes patched word `0`, whereas the claim's
stub-patched word (original `0` with low byte `0xFA`) is nonzero. -/
theorem R_ARM_CALL_thumb_stub_vanishes_witness :
    isThumbFunc true 0x2001 = true ∧
    R_ARM_CALL_value 0x1000 0 0x2001 true = 0 ∧
    pyOr (pyAnd 0 (pyNot 0xFF)) 0xFA ≠ 0 :=
  ⟨by decide, R_ARM_CALL_thumb_stub_vanishes 0x1000 0 0x2001 true (by decide), by decide⟩

/-- C3: the claim states the addend of `R_ARM_PREL31` is sign-extended from a
31-bit field (sign bit at position 30).  The code instead tests bit 24
(`A & 0x01000000`) and ORs in `0xF1000000`.  At the stored field value
`A = 0x01000000` (bit 30 clear, so a correct 31-bit sign extension leaves it
unchanged and the claimed stored result would be `0x01000000`), the code
computes `0xF1000000`. -/
theorem R_ARM_PREL31_sign_extension_bug :
    R_ARM_PREL31_value 0 0x01000000 0 false = 0xF1000000 ∧
    (0xF1000000 : Int) ≠ 0x01000000 := by
  constructor
  · decide
  · decide

/-- C7: the spec's example scenario for `R_ARM_CALL` at `P = 0x1000`,
addend `A = 0` (so the stored instruction word is 0), non-Thumb symbol at
`S = 0x2000` (the address is even, so `T = 0` even for a function symbol):
the branch value is `0x2000 - 0x1000 = 0x1000`, the encoded 24-bit
immediate is `0x1000 >> 2 = 0x400`, and the patched instruction equals
`(original & 0xFF000000) | 0x400`. -/
theorem R_ARM_CALL_example_scenario :
    R_ARM_CALL_value 0x1000 0 0x2000 true = 0x400 ∧
    ((0x2000 : Int) - 0x1000) = 0x1000 ∧
    (0x400 : Int) = (0x1000 : Int) >>> 2 ∧
    R_ARM_CALL_value 0x1000 0 0x2000 true = pyOr (pyAnd 0 0xFF000000) 0x400 := by
  refine ⟨by decide, by decide, by decide, by decide⟩

/-! ## C8: unresolved records apply as no-ops -/

/-- C8: a relocation record whose `resolvedby` binding is absent (unresolved)
returns `False` from `relocate` and leaves the destination memory word
byte-for-byte unchanged, for every AArch64 instruction-patching relocation
embedded here. -/
theorem unresolved_relocate_no_write (A P : Int) (mem : Nat) :
    R_AARCH64_JUMP26_relocate none A P mem = (false, mem) ∧
    R_AARCH64_CALL26_relocate none A P mem = (false, mem) ∧
    R_AARCH64_ADR_PREL_PG_HI21_relocate none A P mem = (false, mem) ∧
    R_AARCH64_ADD_ABS_LO12_NC_relocate none A mem = (false, mem) ∧
    R_AARCH64_LDST8_ABS_LO12_NC_relocate none A mem = (false, mem) ∧
    R_AARCH64_LDST16_ABS_LO12_NC_relocate none A mem = (false, mem) ∧
    R_AARCH64_LDST32_ABS_LO12_NC_relocate none A mem = (false, mem) ∧
    R_AARCH64_LDST64_ABS_LO12_NC_relocate none A mem = (false, mem) ∧
    R_AARCH64_LDST128_ABS_LO12_NC_relocate none A mem = (false, mem) :=
  ⟨rfl, rfl, rfl, rfl, rfl, rfl, rfl, rfl, rfl⟩

/-! ## C2: the PE HIGHADJ pairing in the dispatcher -/

/-- C2: the claim states that for a HIGHADJ entry the immediately following
directory entry supplies the rounding adjustment, and that a HIGHADJ entry
terminating a truncated block produces a warning.  In the code,
`next_entry = base_reloc.entries[entry_idx]` is read before the cursor is
incremented, so the produced record's `next_rva` is the HIGHADJ entry's own
RVA (here `0x100`), not the following entry's (`0x200`); and the truncation
guard `entry_idx == len(base_reloc.entries)` sits inside the loop condition
`entry_idx < len(...)`, so it can never fire: on the truncated block
`[HIGHADJ]` no warning is recorded.  (The following entry is indeed consumed
and never applied standalone: the two-entry block yields a single record.) -/
theorem registerRelocs_highadj_pairing_bug :
    (registerRelocsBlock (fun _ => true) [⟨4, 0x100⟩, ⟨9, 0x200⟩] false []).1 =
      [.highadj 0x100 0x100] ∧
    PERelocRecord.highadj 0x100 0x100 ≠ PERelocRecord.highadj 0x100 0x200 ∧
    (registerRelocsBlock (fun _ => true) [⟨4, 0x100⟩] false []).2.2 = false := by
  refine ⟨?_, by decide, ?_⟩ <;>
    simp [registerRelocsBlock, registerRelocsGo, makeReloc, IMAGE_REL_BASED_HIGHADJ_TYPE]

/-! ## C10: base-relocation registration and the pic flag -/

theorem registerRelocsGo_pic_mono (lookup : Nat → Bool) (entries : List PEBaseRelocEntry) :
    ∀ (n i : Nat) (acc : List PERelocRecord) (warned : Bool),
      entries.length - i ≤ n →
      (registerRelocsGo lookup entries i true acc warned).2.1 = true := by
  intro n
  induction n with
  | zero =>
    intro i acc warned hn
    rw [registerRelocsGo, dif_neg (by omega)]
  | succ n ih =>
    intro i acc warned hn
    rw [registerRelocsGo]
    dsimp only
    repeat' split
    all_goals first
      | rfl
      | omega
      | exact ih _ _ _ (by omega)

theorem registerRelocsGo_pic_true (lookup : Nat → Bool) (entries : List PEBaseRelocEntry)
    (i : Nat) (acc : List PERelocRecord) (warned : Bool) :
    (registerRelocsGo lookup entries i true acc warned).2.1 = true :=
  registerRelocsGo_pic_mono lookup entries (entries.length - i) i acc warned (le_refl _)

theorem registerRelocsGo_length_mono (lookup : Nat → Bool) (entries : List PEBaseRelocEntry) :
    ∀ (n i : Nat) (pic : Bool) (acc : List PERelocRecord) (warned : Bool),
      entries.length - i ≤ n →
      acc.length ≤ (registerRelocsGo lookup entries i pic acc warned).1.length := by
  intro n
  induction n with
  | zero =>
    intro i pic acc warned hn
    rw [registerRelocsGo, dif_neg (by omega)]
  | succ n ih =>
    intro i pic acc warned hn
    rw [registerRelocsGo]
    dsimp only
    repeat' split
    all_goals first
      | exact le_refl _
      | omega
      | exact le_trans (by simp) (ih _ _ _ _ (by omega))

theorem registerRelocsGo_le_length (lookup : Nat → Bool) (entries : List PEBaseRelocEntry)
    (i : Nat) (pic : Bool) (acc : List PERelocRecord) (warned : Bool) :
    acc.length ≤ (registerRelocsGo lookup entries i pic acc warned).1.length :=
  registerRelocsGo_length_mono lookup entries (entries.length - i) i pic acc warned (le_refl _)

theorem registerRelocsGo_pic_iff (lookup : Nat → Bool) (entries : List PEBaseRelocEntry) :
    ∀ (n i : Nat) (pic : Bool) (acc : List PERelocRecord) (warned : Bool),
      entries.length - i ≤ n →
      ((registerRelocsGo lookup entries i pic acc warned).2.1 = true ↔
        pic = true ∨
          acc.length < (registerRelocsGo lookup entries i pic acc warned).1.length) := by
  intro n
  induction n with
  | zero =>
    intro i pic acc warned hn
    rw [registerRelocsGo, dif_neg (by omega)]
    simp
  | succ n ih =>
    intro i pic acc warned hn
    rw [registerRelocsGo]
    dsimp only
    repeat' split
    all_goals first
      | omega
      | exact ih _ _ _ _ (by omega)
      | (simp only [registerRelocsGo_pic_true, true_iff]
         right
         calc acc.length < (acc ++ [_]).length := by simp
           _ ≤ _ := registerRelocsGo_le_length _ _ _ _ _ _)
      | simp
theorem registerRelocs_pic_mono (lookup : Nat → Bool) :
    ∀ (blocks : List (List PEBaseRelocEntry)) (acc : List PERelocRecord),
      (registerRelocs lookup blocks true acc).2 = true := by
  intro blocks
  induction blocks with
  | nil => intro acc; rfl
  | cons b rest ih =>
    intro acc
    unfold registerRelocs
    dsimp only
    rw [show (registerRelocsBlock lookup b true acc).2.1 = true from
      registerRelocsGo_pic_true lookup b 0 acc false]
    exact ih _

theorem registerRelocs_le_length (lookup : Nat → Bool) :
    ∀ (blocks : List (List PEBaseRelocEntry)) (pic : Bool) (acc : List PERelocRecord),
      acc.length ≤ (registerRelocs lookup blocks pic acc).1.length := by
  intro blocks
  induction blocks with
  | nil => intro pic acc; exact le_refl _
  | cons b rest ih =>
    intro pic acc
    unfold registerRelocs
    dsimp only
    exact le_trans (registerRelocsGo_le_length lookup b 0 pic acc false) (ih _ _)

theorem registerRelocs_pic_iff (lookup : Nat → Bool) :
    ∀ (blocks : List (List PEBaseRelocEntry)) (pic : Bool) (acc : List PERelocRecord),
      ((registerRelocs lookup blocks pic acc).2 = true ↔
        pic = true ∨ acc.length < (registerRelocs lookup blocks pic acc).1.length) := by
  intro blocks
  induction blocks with
  | nil =>
    intro pic acc
    simp [registerRelocs]
  | cons b rest ih =>
    intro pic acc
    unfold registerRelocs
    dsimp only
    rw [ih]
    have hblock : (registerRelocsBlock lookup b pic acc).2.1 = true ↔
        pic = true ∨ acc.length < (registerRelocsBlock lookup b pic acc).1.length :=
      registerRelocsGo_pic_iff lookup b b.length 0 pic acc false (by omega)
    have h1 : acc.length ≤ (registerRelocsBlock lookup b pic acc).1.length :=
      registerRelocsGo_le_length lookup b 0 pic acc false
    have h2 : (registerRelocsBlock lookup b pic acc).1.length ≤
        (registerRelocs lookup rest (registerRelocsBlock lookup b pic acc).2.1
          (registerRelocsBlock lookup b pic acc).1).1.length :=
      registerRelocs_le_length lookup rest _ _
    rw [hblock]
    constructor
    · rintro ((hp | hlt) | hlt2)
      · exact Or.inl hp
      · exact Or.inr (by omega)
      · exact Or.inr (by omega)
    · rintro (hp | hlt)
      · exact Or.inl (Or.inl hp)
      · rcases Nat.lt_or_ge acc.length (registerRelocsBlock lookup b pic acc).1.length with h | h
        · exact Or.inl (Or.inr h)
        · exact Or.inr (by omega)

/-- C10: after PE base-relocation registration, if at least one directory
entry produced a relocation record (the relocation list grew), the object's
`pic` flag is `True` — even when the DllCharacteristics dynamic-base bit
(0x40) is unset, so that the initial `pic` from `PE.__init__` is `False` —
and registration never clears a `pic` flag that was already `True`. -/
theorem pe_register_relocs_pic (lookup : Nat → Bool)
    (blocks : List (List PEBaseRelocEntry)) (dllChar : Nat)
    (acc : List PERelocRecord) :
    (dllChar &&& 0x40 = 0 → picInit false dllChar = false) ∧
    (acc.length < (registerRelocs lookup blocks (picInit false dllChar) acc).1.length →
      (registerRelocs lookup blocks (picInit false dllChar) acc).2 = true) ∧
    (∀ pic : Bool, pic = true → (registerRelocs lookup blocks pic acc).2 = true) := by
  refine ⟨?_, ?_, ?_⟩
  · intro h
    simp [picInit, h]
  · intro h
    rw [registerRelocs_pic_iff]
    exact Or.inr h
  · intro pic hp
    subst hp
    exact registerRelocs_pic_mono lookup blocks acc

/-- C10 witness: one directory block with a single type-7 entry, dynamic-base
bit unset: the initial flag is `False`, one record is produced, and the final
flag is `True`; a prior `True` flag also survives. -/
theorem pe_register_relocs_pic_witness :
    ((0 : Nat) &&& 0x40 = 0 ∧ picInit false 0 = false) ∧
    (([] : List PERelocRecord).length <
      (registerRelocs (fun _ => true) [[⟨7, 16⟩]] (picInit false 0) []).1.length ∧
      (registerRelocs (fun _ => true) [[⟨7, 16⟩]] (picInit false 0) []).2 = true) ∧
    (registerRelocs (fun _ => true) [[⟨7, 16⟩]] true []).2 = true := by
  have hlen : ([] : List PERelocRecord).length <
      (registerRelocs (fun _ => true) [[⟨7, 16⟩]] (picInit false 0) []).1.length := by
    simp [registerRelocs, registerRelocsBlock, registerRelocsGo, makeReloc,
      IMAGE_REL_BASED_HIGHADJ_TYPE, picInit]
  exact ⟨⟨by decide, (pe_register_relocs_pic (fun _ => true) [[⟨7, 16⟩]] 0 []).1 (by decide)⟩,
    ⟨hlen, (pe_register_relocs_pic (fun _ => true) [[⟨7, 16⟩]] 0 []).2.1 hlen⟩,
    (pe_register_relocs_pic (fun _ => true) [[⟨7, 16⟩]] 0 []).2.2 true rfl⟩

/-! ## C4: Thumb-call range check is a hard error -/

theorem toNat_emod_32_lt (v : Int) : (v % (2 ^ 32 : Int)).toNat < 2 ^ 32 := by
  have h1 : 0 ≤ v % (2 ^ 32 : Int) := Int.emod_nonneg _ (by norm_num)
  have h2 : v % (2 ^ 32 : Int) < (2 ^ 32 : Int) := Int.emod_lt_of_pos _ (by norm_num)
  omega

theorem thmCallOffset_lt (P S : Nat) (symbolIsFunc isRela : Bool) (addend : Int)
    (w : Nat) : thmCallOffset P S symbolIsFunc isRela addend w < 2 ^ 32 := by
  unfold thmCallOffset
  exact toNat_emod_32_lt _

theorem thmCall_range_cond_iff {x : Nat} (hx : x < 2 ^ 32) :
    (x &&& 0xFF800000 ≠ 0 ∧ x &&& 0xFF800000 ≠ 0xFF800000) ↔ ¬ fitsThmWindow x := by
  unfold fitsThmWindow
  rw [not_or]
  constructor
  · rintro ⟨h1, h2⟩
    exact ⟨fun hlt23 => h1 ((and_hi9_eq_zero_iff hx).mpr hlt23),
           fun hge => h2 ((and_hi9_eq_self_iff hx).mpr hge)⟩
  · rintro ⟨h1, h2⟩
    exact ⟨fun h0 => h1 ((and_hi9_eq_zero_iff hx).mp h0),
           fun hs => h2 ((and_hi9_eq_self_iff hx).mp hs)⟩

/-- C4: for `R_ARM_THM_CALL`, whenever the computed 32-bit PC-relative
offset does not fit the signed `±2^23` window, the value computation raises
the typed `CLEOperationError` (not a log-only warning) and the application
step leaves the destination word byte-for-byte unmodified; whenever the
offset fits the window, no error is raised and the patched word is written. -/
theorem R_ARM_THM_CALL_range_policy (P S : Nat) (symbolIsFunc isRela : Bool)
    (addend : Int) (w : Nat) :
    (¬ fitsThmWindow (thmCallOffset P S symbolIsFunc isRela addend w) →
      R_ARM_THM_CALL_apply P S symbolIsFunc isRela addend w =
        (.error (.operationError
          "Jump target out of range for reloc R_ARM_THM_CALL (+- 2^23)."), w)) ∧
    (fitsThmWindow (thmCallOffset P S symbolIsFunc isRela addend w) →
      R_ARM_THM_CALL_apply P S symbolIsFunc isRela addend w =
        (.ok (), thmInterleave (thmScatter (thmDeinterleaveWord w)
          (thmCallOffset P S symbolIsFunc isRela addend w)))) := by
  have hlt := thmCallOffset_lt P S symbolIsFunc isRela addend w
  constructor
  · intro hnf
    unfold R_ARM_THM_CALL_apply R_ARM_THM_CALL_value
    dsimp only
    rw [if_pos ((thmCall_range_cond_iff hlt).mpr hnf)]
  · intro hf
    unfold R_ARM_THM_CALL_apply R_ARM_THM_CALL_value
    dsimp only
    rw [if_neg (fun hc => (thmCall_range_cond_iff hlt).mp hc hf)]

/-- C4 witness: offset `0x01000000 = 2^24` is outside the window and yields
the propagated error with memory untouched; offset `4` is inside and the
patched word is written. -/
theorem R_ARM_THM_CALL_range_policy_witness :
    (¬ fitsThmWindow (thmCallOffset 0 0x01000000 false true 0 0) ∧
      R_ARM_THM_CALL_apply 0 0x01000000 false true 0 0 =
        (.error (.operationError
          "Jump target out of range for reloc R_ARM_THM_CALL (+- 2^23)."), 0)) ∧
    (fitsThmWindow (thmCallOffset 0 4 false true 0 0) ∧
      R_ARM_THM_CALL_apply 0 4 false true 0 0 =
        (.ok (), thmInterleave (thmScatter (thmDeinterleaveWord 0)
          (thmCallOffset 0 4 false true 0 0)))) :=
  ⟨⟨by decide, (R_ARM_THM_CALL_range_policy 0 0x01000000 false true 0 0).1 (by decide)⟩,
   ⟨by decide, (R_ARM_THM_CALL_range_policy 0 4 false true 0 0).2 (by decide)⟩⟩

/-! ## C6 / C9: AArch64 encoding fields and frame preservation -/

theorem branch26_preserved {imm mem : Nat} (himm : imm < 2 ^ 26) (hmem : mem < 2 ^ 32) :
    ∀ i, 26 ≤ i → ((mem &&& 0b11111100000000000000000000000000) ||| imm).testBit i =
      mem.testBit i := by
  intro i hi
  have himmBit : ∀ j, 26 ≤ j → imm.testBit j = false := fun j hj => testBit_ge_of_lt himm hj
  rcases Nat.lt_or_ge i 32 with h32 | h32
  · interval_cases i <;> simp +decide [Nat.testBit_or, Nat.testBit_and, himmBit]
  · have hw : (mem &&& 0b11111100000000000000000000000000) ||| imm < 2 ^ 32 :=
      Nat.or_lt_two_pow (lt_of_le_of_lt Nat.and_le_right (by norm_num))
        (lt_trans himm (by norm_num))
    rw [testBit_ge_of_lt hw h32, testBit_ge_of_lt hmem h32]

theorem adrp_preserved {immhi immlo mem : Nat} (hhi : immhi < 2 ^ 19) (hlo : immlo < 2 ^ 2)
    (hmem : mem < 2 ^ 32) :
    ∀ i, i ≤ 4 ∨ (24 ≤ i ∧ i ≤ 28) ∨ 31 ≤ i →
      ((mem &&& 0b10011111000000000000000000011111) ||| (immhi <<< 5) |||
        (immlo <<< 29)).testBit i = mem.testBit i := by
  intro i hcond
  have hhiBit : ∀ j, 19 ≤ j → immhi.testBit j = false := fun j hj => testBit_ge_of_lt hhi hj
  have hloBit : ∀ j, 2 ≤ j → immlo.testBit j = false := fun j hj => testBit_ge_of_lt hlo hj
  rcases Nat.lt_or_ge i 32 with h32 | h32
  · interval_cases i <;>
      first
        | exact absurd hcond (by decide)
        | simp +decide [Nat.testBit_or, Nat.testBit_and, Nat.testBit_shiftLeft, hhiBit, hloBit]
  · have hw : (mem &&& 0b10011111000000000000000000011111) ||| (immhi <<< 5) |||
        (immlo <<< 29) < 2 ^ 32 := by
      apply Nat.or_lt_two_pow
      · apply Nat.or_lt_two_pow
        · exact lt_of_le_of_lt Nat.and_le_right (by norm_num)
        · calc immhi <<< 5 = immhi * 2 ^ 5 := Nat.shiftLeft_eq _ _
            _ < 2 ^ 19 * 2 ^ 5 := by
                have := hhi
                omega
            _ ≤ 2 ^ 32 := by norm_num
      · calc immlo <<< 29 = immlo * 2 ^ 29 := Nat.shiftLeft_eq _ _
          _ < 2 ^ 2 * 2 ^ 29 := by
              have := hlo
              omega
          _ ≤ 2 ^ 32 := by norm_num
    rw [testBit_ge_of_lt hw h32, testBit_ge_of_lt hmem h32]

theorem lo12_preserved {imm mem : Nat} (himm : imm < 2 ^ 12) (hmem : mem < 2 ^ 32) :
    ∀ i, i ≤ 9 ∨ 22 ≤ i →
      ((mem &&& 0b11111111110000000000001111111111) ||| (imm <<< 10)).testBit i =
        mem.testBit i := by
  intro i hcond
  have himmBit : ∀ j, 12 ≤ j → imm.testBit j = false := fun j hj => testBit_ge_of_lt himm hj
  rcases Nat.lt_or_ge i 32 with h32 | h32
  · interval_cases i <;>
      first
        | exact absurd hcond (by decide)
        | simp +decide [Nat.testBit_or, Nat.testBit_and, Nat.testBit_shiftLeft, himmBit]
  · have hw : (mem &&& 0b11111111110000000000001111111111) ||| (imm <<< 10) < 2 ^ 32 := by
      apply Nat.or_lt_two_pow
      · exact lt_of_le_of_lt Nat.and_le_right (by norm_num)
      · calc imm <<< 10 = imm * 2 ^ 10 := Nat.shiftLeft_eq _ _
          _ < 2 ^ 12 * 2 ^ 10 := by
              have := himm
              omega
          _ ≤ 2 ^ 32 := by norm_num
    rw [testBit_ge_of_lt hw h32, testBit_ge_of_lt hmem h32]

theorem shiftRight_lt_of_lt {x k b : Nat} (h : x < b) : x >>> k < b := by
  rw [Nat.shiftRight_eq_div_pow]
  exact lt_of_le_of_lt (Nat.div_le_self _ _) h

/-- C6: the AArch64 ADRP relocation computes `Page(S+A) - Page(P)` with
`Page(x) = x & ~0xFFF` (proved equal to 4KiB floor truncation), and the
21-bit page-count immediate `value >> 12 & 0x1FFFFF` is split into a 2-bit
low group at instruction bits [30:29] and a 19-bit high group at bits
[23:5]; in particular for `P = 0x1000`, `S + A = 0x3800` the value is
`0x2000`, the immediate field is `2`, `immlo = 2` and `immhi = 0`. -/
theorem R_AARCH64_ADR_PREL_PG_HI21_encoding (S A P : Int) (mem : Nat) :
    (R_AARCH64_ADR_PREL_PG_HI21_value S A P = pageOf (S + A) - pageOf P) ∧
    (∀ i, i < 2 →
      ((R_AARCH64_ADR_PREL_PG_HI21_relocate (some S) A P mem).2).testBit (29 + i) =
        Nat.testBit ((R_AARCH64_ADR_PREL_PG_HI21_value S A P >>> 12 %
          (2 ^ 21 : Int)).toNat) i) ∧
    (∀ i, i < 19 →
      ((R_AARCH64_ADR_PREL_PG_HI21_relocate (some S) A P mem).2).testBit (5 + i) =
        Nat.testBit ((R_AARCH64_ADR_PREL_PG_HI21_value S A P >>> 12 %
          (2 ^ 21 : Int)).toNat) (2 + i)) ∧
    (R_AARCH64_ADR_PREL_PG_HI21_value 0x3800 0 0x1000 = 0x2000 ∧
      (R_AARCH64_ADR_PREL_PG_HI21_value 0x3800 0 0x1000 >>> 12 %
        (2 ^ 21 : Int)).toNat = 2 ∧
      (2 : Nat) &&& 0b11 = 2 ∧ (2 : Nat) >>> 2 = 0) := by
  have himm : ((R_AARCH64_ADR_PREL_PG_HI21_value S A P >>> 12) %
      (2097152 : Int)).toNat < 2 ^ 21 := by
    have h1 := Int.emod_nonneg (R_AARCH64_ADR_PREL_PG_HI21_value S A P >>> 12)
      (show (2097152 : Int) ≠ 0 by norm_num)
    have h2 := Int.emod_lt_of_pos (R_AARCH64_ADR_PREL_PG_HI21_value S A P >>> 12)
      (show (0 : Int) < 2097152 by norm_num)
    omega
  have hA26 : Nat.testBit ((R_AARCH64_ADR_PREL_PG_HI21_value S A P >>> 12 %
      (2097152 : Int)).toNat) 26 = false := testBit_ge_of_lt himm (by norm_num)
  have hA27 : Nat.testBit ((R_AARCH64_ADR_PREL_PG_HI21_value S A P >>> 12 %
      (2097152 : Int)).toNat) 27 = false := testBit_ge_of_lt himm (by norm_num)
  have hmaskHi : ∀ j, j < 31 → 29 ≤ j → Nat.testBit 2667577375 j = false := by decide
  have hmaskMid : ∀ j, j < 24 → 5 ≤ j → Nat.testBit 2667577375 j = false := by decide
  have htri : ∀ j, j < 2 → Nat.testBit 3 j = true := by decide
  refine ⟨?_, ?_, ?_, by decide, by decide, by decide, by decide⟩
  · unfold R_AARCH64_ADR_PREL_PG_HI21_value
    rw [pyAnd_pageMask, pyAnd_pageMask]
  · unfold R_AARCH64_ADR_PREL_PG_HI21_relocate
    dsimp only
    intro i hi
    interval_cases i <;>
      simp [Nat.testBit_or, Nat.testBit_and, Nat.testBit_shiftLeft,
        Nat.testBit_shiftRight, hA26, hA27, hmaskHi, htri]
  · unfold R_AARCH64_ADR_PREL_PG_HI21_relocate
    dsimp only
    intro i hi
    interval_cases i <;>
      simp [Nat.testBit_or, Nat.testBit_and, Nat.testBit_shiftLeft,
        Nat.testBit_shiftRight, hmaskMid]

/-- C6 witness: the bit-placement parts at concrete indices, via the theorem
(with `S = 0x3800`, `A = 0`, `P = 0x1000`, stored word `0x90000000`). -/
theorem R_AARCH64_ADR_PREL_PG_HI21_encoding_witness :
    ((0 : Nat) < 2 ∧
      ((R_AARCH64_ADR_PREL_PG_HI21_relocate (some 0x3800) 0 0x1000 0x90000000).2).testBit 29 =
        Nat.testBit ((R_AARCH64_ADR_PREL_PG_HI21_value 0x3800 0 0x1000 >>> 12 %
          (2 ^ 21 : Int)).toNat) 0) ∧
    ((0 : Nat) < 19 ∧
      ((R_AARCH64_ADR_PREL_PG_HI21_relocate (some 0x3800) 0 0x1000 0x90000000).2).testBit 5 =
        Nat.testBit ((R_AARCH64_ADR_PREL_PG_HI21_value 0x3800 0 0x1000 >>> 12 %
          (2 ^ 21 : Int)).toNat) 2) :=
  ⟨⟨by decide,
    (R_AARCH64_ADR_PREL_PG_HI21_encoding 0x3800 0 0x1000 0x90000000).2.1 0 (by decide)⟩,
   ⟨by decide,
    (R_AARCH64_ADR_PREL_PG_HI21_encoding 0x3800 0 0x1000 0x90000000).2.2.1 0 (by decide)⟩⟩

/-- C9: every embedded AArch64 instruction-patching relocation, when resolved
and applied, changes only the bits of the 4-byte instruction word that the
relocation type owns: every bit outside the documented immediate field
(bits [25:0] for the 26-bit branches; bits [30:29] and [23:5] for ADRP;
bits [21:10] for the low-12 absolute family) equals the corresponding bit of
the previously stored word. -/
theorem aarch64_patch_frame (S A P : Int) (mem : Nat) (hmem : mem < 2 ^ 32) :
    (∀ i, 26 ≤ i →
      ((R_AARCH64_JUMP26_relocate (some S) A P mem).2).testBit i = mem.testBit i) ∧
    (∀ i, 26 ≤ i →
      ((R_AARCH64_CALL26_relocate (some S) A P mem).2).testBit i = mem.testBit i) ∧
    (∀ i, i ≤ 4 ∨ (24 ≤ i ∧ i ≤ 28) ∨ 31 ≤ i →
      ((R_AARCH64_ADR_PREL_PG_HI21_relocate (some S) A P mem).2).testBit i =
        mem.testBit i) ∧
    (∀ i, i ≤ 9 ∨ 22 ≤ i →
      ((R_AARCH64_ADD_ABS_LO12_NC_relocate (some S) A mem).2).testBit i =
        mem.testBit i) ∧
    (∀ i, i ≤ 9 ∨ 22 ≤ i →
      ((R_AARCH64_LDST8_ABS_LO12_NC_relocate (some S) A mem).2).testBit i =
        mem.testBit i) ∧
    (∀ i, i ≤ 9 ∨ 22 ≤ i →
      ((R_AARCH64_LDST16_ABS_LO12_NC_relocate (some S) A mem).2).testBit i =
        mem.testBit i) ∧
    (∀ i, i ≤ 9 ∨ 22 ≤ i →
      ((R_AARCH64_LDST32_ABS_LO12_NC_relocate (some S) A mem).2).testBit i =
        mem.testBit i) ∧
    (∀ i, i ≤ 9 ∨ 22 ≤ i →
      ((R_AARCH64_LDST64_ABS_LO12_NC_relocate (some S) A mem).2).testBit i =
        mem.testBit i) ∧
    (∀ i, i ≤ 9 ∨ 22 ≤ i →
      ((R_AARCH64_LDST128_ABS_LO12_NC_relocate (some S) A mem).2).testBit i =
        mem.testBit i) := by
  have hb26 : ∀ v : Int, ((v >>> 2) % (2 ^ 26 : Int)).toNat < 2 ^ 26 := by
    intro v
    have h1 := Int.emod_nonneg (v >>> 2) (show (2 ^ 26 : Int) ≠ 0 by norm_num)
    have h2 := Int.emod_lt_of_pos (v >>> 2) (show (0 : Int) < 2 ^ 26 by norm_num)
    omega
  have hb12 : ∀ v : Int, (v % (2 ^ 12 : Int)).toNat < 2 ^ 12 := by
    intro v
    have h1 := Int.emod_nonneg v (show (2 ^ 12 : Int) ≠ 0 by norm_num)
    have h2 := Int.emod_lt_of_pos v (show (0 : Int) < 2 ^ 12 by norm_num)
    omega
  have hb21 : ∀ v : Int, ((v >>> 12) % (2 ^ 21 : Int)).toNat < 2 ^ 21 := by
    intro v
    have h1 := Int.emod_nonneg (v >>> 12) (show (2 ^ 21 : Int) ≠ 0 by norm_num)
    have h2 := Int.emod_lt_of_pos (v >>> 12) (show (0 : Int) < 2 ^ 21 by norm_num)
    omega
  refine ⟨?_, ?_, ?_, ?_, ?_, ?_, ?_, ?_, ?_⟩
  · unfold R_AARCH64_JUMP26_relocate
    dsimp only
    exact branch26_preserved (hb26 _) hmem
  · unfold R_AARCH64_CALL26_relocate
    dsimp only
    exact branch26_preserved (hb26 _) hmem
  · unfold R_AARCH64_ADR_PREL_PG_HI21_relocate
    dsimp only
    apply adrp_preserved
    · have h21 := hb21 (R_AARCH64_ADR_PREL_PG_HI21_value S A P)
      rw [Nat.shiftRight_eq_div_pow]
      omega
    · exact lt_of_le_of_lt Nat.and_le_right (by norm_num)
    · exact hmem
  · unfold R_AARCH64_ADD_ABS_LO12_NC_relocate
    dsimp only
    exact lo12_preserved (hb12 _) hmem
  · unfold R_AARCH64_LDST8_ABS_LO12_NC_relocate
    dsimp only
    exact lo12_preserved (hb12 _) hmem
  · unfold R_AARCH64_LDST16_ABS_LO12_NC_relocate
    dsimp only
    exact lo12_preserved (shiftRight_lt_of_lt (hb12 _)) hmem
  · unfold R_AARCH64_LDST32_ABS_LO12_NC_relocate
    dsimp only
    exact lo12_preserved (shiftRight_lt_of_lt (hb12 _)) hmem
  · unfold R_AARCH64_LDST64_ABS_LO12_NC_relocate
    dsimp only
    exact lo12_preserved (shiftRight_lt_of_lt (hb12 _)) hmem
  · unfold R_AARCH64_LDST128_ABS_LO12_NC_relocate
    dsimp only
    exact lo12_preserved (shiftRight_lt_of_lt (hb12 _)) hmem

/-- C9 witness: one preserved bit of each relocation family, at concrete
inputs `S = 0x12345`, `A = 7`, `P = 0x1000`, stored word `0xFEDCBA98`. -/
theorem aarch64_patch_frame_witness :
    ((0xFEDCBA98 : Nat) < 2 ^ 32 ∧ (26 : Nat) ≤ 31) ∧
    ((R_AARCH64_JUMP26_relocate (some 0x12345) 7 0x1000 0xFEDCBA98).2).testBit 31 =
      (0xFEDCBA98 : Nat).testBit 31 ∧
    ((R_AARCH64_CALL26_relocate (some 0x12345) 7 0x1000 0xFEDCBA98).2).testBit 26 =
      (0xFEDCBA98 : Nat).testBit 26 ∧
    ((R_AARCH64_ADR_PREL_PG_HI21_relocate (some 0x12345) 7 0x1000 0xFEDCBA98).2).testBit 31 =
      (0xFEDCBA98 : Nat).testBit 31 ∧
    ((R_AARCH64_ADD_ABS_LO12_NC_relocate (some 0x12345) 7 0xFEDCBA98).2).testBit 22 =
      (0xFEDCBA98 : Nat).testBit 22 ∧
    ((R_AARCH64_LDST8_ABS_LO12_NC_relocate (some 0x12345) 7 0xFEDCBA98).2).testBit 9 =
      (0xFEDCBA98 : Nat).testBit 9 ∧
    ((R_AARCH64_LDST16_ABS_LO12_NC_relocate (some 0x12345) 7 0xFEDCBA98).2).testBit 22 =
      (0xFEDCBA98 : Nat).testBit 22 ∧
    ((R_AARCH64_LDST32_ABS_LO12_NC_relocate (some 0x12345) 7 0xFEDCBA98).2).testBit 22 =
      (0xFEDCBA98 : Nat).testBit 22 ∧
    ((R_AARCH64_LDST64_ABS_LO12_NC_relocate (some 0x12345) 7 0xFEDCBA98).2).testBit 22 =
      (0xFEDCBA98 : Nat).testBit 22 ∧
    ((R_AARCH64_LDST128_ABS_LO12_NC_relocate (some 0x12345) 7 0xFEDCBA98).2).testBit 22 =
      (0xFEDCBA98 : Nat).testBit 22 :=
  ⟨⟨by decide, by decide⟩,
   (aarch64_patch_frame 0x12345 7 0x1000 0xFEDCBA98 (by decide)).1 31 (by decide),
   (aarch64_patch_frame 0x12345 7 0x1000 0xFEDCBA98 (by decide)).2.1 26 (by decide),
   (aarch64_patch_frame 0x12345 7 0x1000 0xFEDCBA98 (by decide)).2.2.1 31 (by decide),
   (aarch64_patch_frame 0x12345 7 0x1000 0xFEDCBA98 (by decide)).2.2.2.1 22 (by decide),
   (aarch64_patch_frame 0x12345 7 0x1000 0xFEDCBA98 (by decide)).2.2.2.2.1 9 (by decide),
   (aarch64_patch_frame 0x12345 7 0x1000 0xFEDCBA98 (by decide)).2.2.2.2.2.1 22 (by decide),
   (aarch64_patch_frame 0x12345 7 0x1000 0xFEDCBA98 (by decide)).2.2.2.2.2.2.1 22 (by decide),
   (aarch64_patch_frame 0x12345 7 0x1000 0xFEDCBA98 (by decide)).2.2.2.2.2.2.2.1 22 (by decide),
   (aarch64_patch_frame 0x12345 7 0x1000 0xFEDCBA98 (by decide)).2.2.2.2.2.2.2.2 22 (by decide)⟩

/-! ## C5: round-trip of the Thumb-2 BL/BLX bit-scattering -/

/-! ## C5: Thumb-2 call bit-scattering round trip -/

theorem ite_one_zero_lt_two (c : Prop) [Decidable c] : (if c then 1 else 0 : Nat) < 2 := by
  split <;> norm_num

theorem thmGatherA_lt (y : Nat) : thmGatherA y < 2 ^ 32 := by
  unfold thmGatherA
  dsimp only
  split
  · exact Nat.or_lt_two_pow (lt_of_le_of_lt Nat.and_le_right (by norm_num)) (by norm_num)
  · exact lt_of_le_of_lt Nat.and_le_right (by norm_num)

theorem shiftLeft_lt_two_pow {a k b m : Nat} (ha : a < 2 ^ b) (hkb : k + b ≤ m) :
    a <<< k < 2 ^ m := by
  rw [Nat.shiftLeft_eq]
  calc a * 2 ^ k < 2 ^ b * 2 ^ k := by
        have h2 : 0 < 2 ^ k := Nat.two_pow_pos k
        exact (Nat.mul_lt_mul_right h2).mpr ha
    _ = 2 ^ (b + k) := by rw [Nat.pow_add]
    _ ≤ 2 ^ m := Nat.pow_le_pow_right (by norm_num) (by omega)

theorem thmScatter_lt (inst x : Nat) : thmScatter inst x < 2 ^ 32 := by
  unfold thmScatter
  dsimp only
  have hs : (if x &&& genMask 1 24 ≠ 0 then 1 else 0 : Nat) < 2 := ite_one_zero_lt_two _
  have hJ1 : ((if x &&& genMask 1 23 ≠ 0 then 1 else 0 : Nat) ^^^
      (1 - (if x &&& genMask 1 24 ≠ 0 then 1 else 0))) < 2 := by
    have h1 := ite_one_zero_lt_two (x &&& genMask 1 23 ≠ 0)
    have h2 : (1 - (if x &&& genMask 1 24 ≠ 0 then 1 else 0) : Nat) < 2 := by omega
    calc _ < 2 ^ 1 := Nat.xor_lt_two_pow h1 h2
      _ = 2 := by norm_num
  have hJ2 : ((if x &&& genMask 1 22 ≠ 0 then 1 else 0 : Nat) ^^^
      (1 - (if x &&& genMask 1 24 ≠ 0 then 1 else 0))) < 2 := by
    have h1 := ite_one_zero_lt_two (x &&& genMask 1 22 ≠ 0)
    have h2 : (1 - (if x &&& genMask 1 24 ≠ 0 then 1 else 0) : Nat) < 2 := by omega
    calc _ < 2 ^ 1 := Nat.xor_lt_two_pow h1 h2
      _ = 2 := by norm_num
  apply Nat.or_lt_two_pow
  apply Nat.or_lt_two_pow
  apply Nat.or_lt_two_pow
  apply Nat.or_lt_two_pow
  apply Nat.or_lt_two_pow
  · exact lt_of_le_of_lt Nat.and_le_right (by norm_num)
  · exact shiftLeft_lt_two_pow (b := 1) hs (by norm_num)
  · exact shiftLeft_lt_two_pow (b := 1) hJ1 (by norm_num)
  · exact shiftLeft_lt_two_pow (b := 1) hJ2 (by norm_num)
  · have : (x &&& genMask 11 1) >>> 1 ≤ genMask 11 1 :=
      le_trans (by
        rw [Nat.shiftRight_eq_div_pow]
        exact Nat.div_le_self _ _) Nat.and_le_right
    calc (x &&& genMask 11 1) >>> 1 ≤ genMask 11 1 := this
      _ < 2 ^ 32 := by decide
  · have h1 : (x &&& genMask 10 12) >>> 12 < 2 ^ 10 := by
      have h2 : x &&& genMask 10 12 ≤ genMask 10 12 := Nat.and_le_right
      rw [Nat.shiftRight_eq_div_pow]
      have h3 : genMask 10 12 = 4190208 := by decide
      omega
    exact shiftLeft_lt_two_pow (b := 10) h1 (by norm_num)

theorem thmDeinterleaveWord_lt (w : Nat) : thmDeinterleaveWord w < 2 ^ 32 := by
  unfold thmDeinterleaveWord
  dsimp only
  apply Nat.or_lt_two_pow
  · apply shiftLeft_lt_two_pow (b := 16) ?_ (by norm_num)
    apply Nat.or_lt_two_pow
    · exact shiftLeft_lt_two_pow (b := 8) (Nat.mod_lt _ (by norm_num)) (by norm_num)
    · exact lt_of_lt_of_le (Nat.mod_lt _ (by norm_num)) (by norm_num)
  · apply lt_of_lt_of_le ?_ (show 2 ^ 16 ≤ 2 ^ 32 by norm_num)
    apply Nat.or_lt_two_pow
    · exact shiftLeft_lt_two_pow (b := 8) (Nat.mod_lt _ (by norm_num)) (by norm_num)
    · exact lt_of_lt_of_le (Nat.mod_lt _ (by norm_num)) (by norm_num)

theorem testBit_mod_256 (a j : Nat) : (a % 256).testBit j = (decide (j < 8) && a.testBit j) := by
  have h := Nat.testBit_mod_two_pow a 8 j
  norm_num at h ⊢
  exact h

theorem div_256_shiftRight (a : Nat) : a / 256 = a >>> 8 := by
  rw [Nat.shiftRight_eq_div_pow]

theorem div_65536_shiftRight (a : Nat) : a / 65536 = a >>> 16 := by
  rw [Nat.shiftRight_eq_div_pow]

theorem div_16777216_shiftRight (a : Nat) : a / 16777216 = a >>> 24 := by
  rw [Nat.shiftRight_eq_div_pow]

theorem thmDeinterleave_thmInterleave (inst : Nat) (h32 : inst < 2 ^ 32) :
    thmDeinterleaveWord (thmInterleave inst) = inst := by
  have hm_b0 : ∀ j, j < 64 → Nat.testBit 255 j = decide (j < 8) := by decide
  have hm_b1 : ∀ j, j < 64 → Nat.testBit 65280 j = decide (8 ≤ j ∧ j < 16) := by decide
  have hm_b2 : ∀ j, j < 64 → Nat.testBit 16711680 j = decide (16 ≤ j ∧ j < 24) := by decide
  have hm_b3 : ∀ j, j < 64 → Nat.testBit 4278190080 j = decide (24 ≤ j ∧ j < 32) := by decide
  apply Nat.eq_of_testBit_eq
  intro i
  rcases Nat.lt_or_ge i 32 with hi | hi
  · unfold thmDeinterleaveWord thmInterleave
    dsimp only
    interval_cases i <;>
      simp [testBit_mod_256, div_256_shiftRight, div_65536_shiftRight,
        div_16777216_shiftRight, Nat.testBit_or, Nat.testBit_and, Nat.testBit_shiftLeft,
        Nat.testBit_shiftRight, hm_b0, hm_b1, hm_b2, hm_b3, -Nat.testBit_zero]
  · rw [testBit_ge_of_lt (thmDeinterleaveWord_lt _) hi, testBit_ge_of_lt h32 hi]

set_option maxHeartbeats 3200000 in
theorem thmGatherA_thmScatter (inst x : Nat) (hx32 : x < 2 ^ 32) (heven : x % 2 = 0)
    (hrange : x &&& 0xFF800000 = 0 ∨ x &&& 0xFF800000 = 0xFF800000) :
    thmGatherA (thmScatter inst x) = x := by
  have hm_F8 : ∀ j, j < 64 → Nat.testBit 4160802816 j =
      decide ((27 ≤ j ∧ j < 32) ∨ j = 15 ∨ j = 14 ∨ j = 12) := by decide
  have hm_FFE : ∀ j, j < 64 → Nat.testBit 4094 j = decide (1 ≤ j ∧ j < 12) := by decide
  have hm_MID : ∀ j, j < 64 → Nat.testBit 4190208 j = decide (12 ≤ j ∧ j < 22) := by decide
  have hm_LO : ∀ j, j < 64 → Nat.testBit 2047 j = decide (j < 11) := by decide
  have hm_M16 : ∀ j, j < 64 → Nat.testBit 67043328 j = decide (16 ≤ j ∧ j < 26) := by decide
  have hm_7F : ∀ j, j < 64 → Nat.testBit 8388607 j = decide (j < 23) := by decide
  have hm_FF8 : ∀ j, j < 64 → Nat.testBit 4286578688 j = decide (23 ≤ j ∧ j < 32) := by decide
  have h1b : ∀ j, j < 64 → Nat.testBit 1 j = decide (j = 0) := by decide
  have hp11 : ∀ j, j < 64 → Nat.testBit 2048 j = decide (j = 11) := by decide
  have hp13 : ∀ j, j < 64 → Nat.testBit 8192 j = decide (j = 13) := by decide
  have hp22 : ∀ j, j < 64 → Nat.testBit 4194304 j = decide (j = 22) := by decide
  have hp23 : ∀ j, j < 64 → Nat.testBit 8388608 j = decide (j = 23) := by decide
  have hp26 : ∀ j, j < 64 → Nat.testBit 67108864 j = decide (j = 26) := by decide
  have hx0 : x.testBit 0 = false := by
    rw [Nat.testBit_zero, heven]
    rfl
  rcases hrange with hR | hR
  · -- positive offsets: bits 23..31 of x are clear
    have hxh : ∀ j, j < 32 → 23 ≤ j → x.testBit j = false := by
      intro j h2 h1
      have hc := congrArg (fun y => y.testBit j) hR
      simp only [Nat.testBit_and, Nat.zero_testBit] at hc
      rw [hm_FF8 j (by omega), decide_eq_true (show 23 ≤ j ∧ j < 32 from ⟨h1, h2⟩),
        Bool.and_true] at hc
      exact hc
    have hc24 : x &&& 16777216 = 0 := and_submask_zero hR (by decide)
    have hc23 : x &&& 8388608 = 0 := and_submask_zero hR (by decide)
    by_cases hb22 : x &&& 4194304 = 0
    · have hx22 : x.testBit 22 = false :=
        testBit_of_and_two_pow_eq_zero (show (4194304 : Nat) = 2 ^ 22 by decide) hb22
      have hs26 : thmScatter inst x &&& genMask 1 26 = 0 := by
        apply and_two_pow_of_testBit_false (show genMask 1 26 = 2 ^ 26 by decide)
        simp [thmScatter, genMask, hc24, hc23, hb22, Nat.testBit_or, Nat.testBit_and,
          Nat.testBit_shiftLeft, Nat.testBit_shiftRight, hm_F8, hm_FFE, hm_MID, h1b,
          hp11, hp13, hp22, hp23, hp26, -Nat.testBit_zero]
      have hs13 : thmScatter inst x &&& genMask 1 13 = 2 ^ 13 := by
        apply and_two_pow_of_testBit_true (show genMask 1 13 = 2 ^ 13 by decide)
        simp [thmScatter, genMask, hc24, hc23, hb22, Nat.testBit_or, Nat.testBit_and,
          Nat.testBit_shiftLeft, Nat.testBit_shiftRight, hm_F8, hm_FFE, hm_MID, h1b,
          hp11, hp13, hp22, hp23, hp26, -Nat.testBit_zero]
      have hs11 : thmScatter inst x &&& genMask 1 11 = 2 ^ 11 := by
        apply and_two_pow_of_testBit_true (show genMask 1 11 = 2 ^ 11 by decide)
        simp [thmScatter, genMask, hc24, hc23, hb22, Nat.testBit_or, Nat.testBit_and,
          Nat.testBit_shiftLeft, Nat.testBit_shiftRight, hm_F8, hm_FFE, hm_MID, h1b,
          hp11, hp13, hp22, hp23, hp26, -Nat.testBit_zero]
      apply Nat.eq_of_testBit_eq
      intro i
      rcases Nat.lt_or_ge i 32 with hi | hi
      · interval_cases i <;>
          · unfold thmGatherA
            rw [hs26, hs13, hs11]
            simp [thmScatter, genMask, hc24, hc23, hb22, hx0, hx22, hxh,
              Nat.testBit_or, Nat.testBit_and, Nat.testBit_shiftLeft, Nat.testBit_shiftRight,
              hm_F8, hm_FFE, hm_MID, hm_LO, hm_M16, hm_7F, hm_FF8, h1b,
              hp11, hp13, hp22, hp23, hp26, -Nat.testBit_zero]
      · rw [testBit_ge_of_lt (thmGatherA_lt _) hi, testBit_ge_of_lt hx32 hi]
    · have hx22 : x.testBit 22 = true :=
        testBit_of_and_two_pow_ne_zero (show (4194304 : Nat) = 2 ^ 22 by decide) hb22
      have hs26 : thmScatter inst x &&& genMask 1 26 = 0 := by
        apply and_two_pow_of_testBit_false (show genMask 1 26 = 2 ^ 26 by decide)
        simp [thmScatter, genMask, hc24, hc23, hb22, Nat.testBit_or, Nat.testBit_and,
          Nat.testBit_shiftLeft, Nat.testBit_shiftRight, hm_F8, hm_FFE, hm_MID, h1b,
          hp11, hp13, hp22, hp23, hp26, -Nat.testBit_zero]
      have hs13 : thmScatter inst x &&& genMask 1 13 = 2 ^ 13 := by
        apply and_two_pow_of_testBit_true (show genMask 1 13 = 2 ^ 13 by decide)
        simp [thmScatter, genMask, hc24, hc23, hb22, Nat.testBit_or, Nat.testBit_and,
          Nat.testBit_shiftLeft, Nat.testBit_shiftRight, hm_F8, hm_FFE, hm_MID, h1b,
          hp11, hp13, hp22, hp23, hp26, -Nat.testBit_zero]
      have hs11 : thmScatter inst x &&& genMask 1 11 = 0 := by
        apply and_two_pow_of_testBit_false (show genMask 1 11 = 2 ^ 11 by decide)
        simp [thmScatter, genMask, hc24, hc23, hb22, Nat.testBit_or, Nat.testBit_and,
          Nat.testBit_shiftLeft, Nat.testBit_shiftRight, hm_F8, hm_FFE, hm_MID, h1b,
          hp11, hp13, hp22, hp23, hp26, -Nat.testBit_zero]
      apply Nat.eq_of_testBit_eq
      intro i
      rcases Nat.lt_or_ge i 32 with hi | hi
      · interval_cases i <;>
          · unfold thmGatherA
            rw [hs26, hs13, hs11]
            simp [thmScatter, genMask, hc24, hc23, hb22, hx0, hx22, hxh,
              Nat.testBit_or, Nat.testBit_and, Nat.testBit_shiftLeft, Nat.testBit_shiftRight,
              hm_F8, hm_FFE, hm_MID, hm_LO, hm_M16, hm_7F, hm_FF8, h1b,
              hp11, hp13, hp22, hp23, hp26, -Nat.testBit_zero]
      · rw [testBit_ge_of_lt (thmGatherA_lt _) hi, testBit_ge_of_lt hx32 hi]
  · -- negative offsets: bits 23..31 of x are set
    have hxh : ∀ j, j < 32 → 23 ≤ j → x.testBit j = true := by
      intro j h2 h1
      have hc := congrArg (fun y => y.testBit j) hR
      simp only [Nat.testBit_and] at hc
      rw [hm_FF8 j (by omega), decide_eq_true (show 23 ≤ j ∧ j < 32 from ⟨h1, h2⟩),
        Bool.and_true] at hc
      exact hc
    have hc24 : x &&& 16777216 = 16777216 := and_submask_self hR (by decide)
    have hc23 : x &&& 8388608 = 8388608 := and_submask_self hR (by decide)
    by_cases hb22 : x &&& 4194304 = 0
    · have hx22 : x.testBit 22 = false :=
        testBit_of_and_two_pow_eq_zero (show (4194304 : Nat) = 2 ^ 22 by decide) hb22
      have hs26 : thmScatter inst x &&& genMask 1 26 = 2 ^ 26 := by
        apply and_two_pow_of_testBit_true (show genMask 1 26 = 2 ^ 26 by decide)
        simp [thmScatter, genMask, hc24, hc23, hb22, Nat.testBit_or, Nat.testBit_and,
          Nat.testBit_shiftLeft, Nat.testBit_shiftRight, hm_F8, hm_FFE, hm_MID, h1b,
          hp11, hp13, hp22, hp23, hp26, -Nat.testBit_zero]
      have hs13 : thmScatter inst x &&& genMask 1 13 = 2 ^ 13 := by
        apply and_two_pow_of_testBit_true (show genMask 1 13 = 2 ^ 13 by decide)
        simp [thmScatter, genMask, hc24, hc23, hb22, Nat.testBit_or, Nat.testBit_and,
          Nat.testBit_shiftLeft, Nat.testBit_shiftRight, hm_F8, hm_FFE, hm_MID, h1b,
          hp11, hp13, hp22, hp23, hp26, -Nat.testBit_zero]
      have hs11 : thmScatter inst x &&& genMask 1 11 = 0 := by
        apply and_two_pow_of_testBit_false (show genMask 1 11 = 2 ^ 11 by decide)
        simp [thmScatter, genMask, hc24, hc23, hb22, Nat.testBit_or, Nat.testBit_and,
          Nat.testBit_shiftLeft, Nat.testBit_shiftRight, hm_F8, hm_FFE, hm_MID, h1b,
          hp11, hp13, hp22, hp23, hp26, -Nat.testBit_zero]
      apply Nat.eq_of_testBit_eq
      intro i
      rcases Nat.lt_or_ge i 32 with hi | hi
      · interval_cases i <;>
          · unfold thmGatherA
            rw [hs26, hs13, hs11]
            simp [thmScatter, genMask, hc24, hc23, hb22, hx0, hx22, hxh,
              Nat.testBit_or, Nat.testBit_and, Nat.testBit_shiftLeft, Nat.testBit_shiftRight,
              hm_F8, hm_FFE, hm_MID, hm_LO, hm_M16, hm_7F, hm_FF8, h1b,
              hp11, hp13, hp22, hp23, hp26, -Nat.testBit_zero]
      · rw [testBit_ge_of_lt (thmGatherA_lt _) hi, testBit_ge_of_lt hx32 hi]
    · have hx22 : x.testBit 22 = true :=
        testBit_of_and_two_pow_ne_zero (show (4194304 : Nat) = 2 ^ 22 by decide) hb22
      have hs26 : thmScatter inst x &&& genMask 1 26 = 2 ^ 26 := by
        apply and_two_pow_of_testBit_true (show genMask 1 26 = 2 ^ 26 by decide)
        simp [thmScatter, genMask, hc24, hc23, hb22, Nat.testBit_or, Nat.testBit_and,
          Nat.testBit_shiftLeft, Nat.testBit_shiftRight, hm_F8, hm_FFE, hm_MID, h1b,
          hp11, hp13, hp22, hp23, hp26, -Nat.testBit_zero]
      have hs13 : thmScatter inst x &&& genMask 1 13 = 2 ^ 13 := by
        apply and_two_pow_of_testBit_true (show genMask 1 13 = 2 ^ 13 by decide)
        simp [thmScatter, genMask, hc24, hc23, hb22, Nat.testBit_or, Nat.testBit_and,
          Nat.testBit_shiftLeft, Nat.testBit_shiftRight, hm_F8, hm_FFE, hm_MID, h1b,
          hp11, hp13, hp22, hp23, hp26, -Nat.testBit_zero]
      have hs11 : thmScatter inst x &&& genMask 1 11 = 2 ^ 11 := by
        apply and_two_pow_of_testBit_true (show genMask 1 11 = 2 ^ 11 by decide)
        simp [thmScatter, genMask, hc24, hc23, hb22, Nat.testBit_or, Nat.testBit_and,
          Nat.testBit_shiftLeft, Nat.testBit_shiftRight, hm_F8, hm_FFE, hm_MID, h1b,
          hp11, hp13, hp22, hp23, hp26, -Nat.testBit_zero]
      apply Nat.eq_of_testBit_eq
      intro i
      rcases Nat.lt_or_ge i 32 with hi | hi
      · interval_cases i <;>
          · unfold thmGatherA
            rw [hs26, hs13, hs11]
            simp [thmScatter, genMask, hc24, hc23, hb22, hx0, hx22, hxh,
              Nat.testBit_or, Nat.testBit_and, Nat.testBit_shiftLeft, Nat.testBit_shiftRight,
              hm_F8, hm_FFE, hm_MID, hm_LO, hm_M16, hm_7F, hm_FF8, h1b,
              hp11, hp13, hp22, hp23, hp26, -Nat.testBit_zero]
      · rw [testBit_ge_of_lt (thmGatherA_lt _) hi, testBit_ge_of_lt hx32 hi]

/-- C5: Round-trip of the Thumb-2 BL/BLX bit-scattering in `R_ARM_THM_CALL.value`
(src/cle/backends/elf/relocation/arm.py): starting from any synthetic instruction
word `w`, de-interleaving its two little-endian halves, re-encoding a chosen
offset `x` (clearing the offset bits and scattering the sign bit, the
XOR-adjusted J1/J2 bits and the two immediate groups), re-interleaving the
result into the output word, then de-interleaving and decoding the offset again
(J1 = bit 13 XOR NOT sign, J2 = bit 11 XOR NOT sign, sign-extension above bit
23) recovers exactly `x`, bit-exact, for every offset in the legal range: even
values below 2^23 or their 32-bit negative counterparts. -/
theorem R_ARM_THM_CALL_roundtrip (w x : Nat) (hx32 : x < 2 ^ 32) (heven : x % 2 = 0)
    (hrange : x &&& 0xFF800000 = 0 ∨ x &&& 0xFF800000 = 0xFF800000) :
    thmGatherA (thmDeinterleaveWord (thmInterleave (thmScatter (thmDeinterleaveWord w) x))) = x := by
  rw [thmDeinterleave_thmInterleave _ (thmScatter_lt _ _)]
  exact thmGatherA_thmScatter _ _ hx32 heven hrange

theorem R_ARM_THM_CALL_roundtrip_witness :
    (0x123456 : Nat) < 2 ^ 32 ∧ (0x123456 : Nat) % 2 = 0 ∧
      ((0x123456 : Nat) &&& 0xFF800000 = 0 ∨ (0x123456 : Nat) &&& 0xFF800000 = 0xFF800000) ∧
      thmGatherA (thmDeinterleaveWord (thmInterleave
        (thmScatter (thmDeinterleaveWord 0xF7D0B000) 0x123456))) = 0x123456 :=
  ⟨by decide, by decide, Or.inl (by decide),
    R_ARM_THM_CALL_roundtrip 0xF7D0B000 0x123456 (by decide) (by decide) (Or.inl (by decide))⟩
